import Mathlib

/-!
Verification of the TuxTimings decoding core.

This file gives a shallow embedding of the three decoders of the
repository — the bit-field extractor and the PM-table decoder
(Linux/src/util.c, Linux/src/pm_table.c), the SMN DRAM-timing decoder
(Linux/src/dram.c) and the AML OperationRegion locator
(Linux/src/aod-voltages/aod_voltages.c) — and proves properties of the
spec against it.

Modelling conventions:
* C `float` values are modelled as rationals (`ℚ`); the decoders only
  compare, copy and apply exact scalings to them, and every concrete
  value exercised here is exactly representable.
* C `uint32_t` values are modelled as `Nat` (bit slices of 32-bit words
  never overflow a natural number); C `int` selector arguments keep
  their signedness as `Int`.
* The fixed-capacity per-core C arrays together with their `count`
  fields are modelled as lists holding exactly the `count` valid
  entries; writing `k` leading entries and setting the count to `k`
  becomes replacing the list by a `k`-element list.
* The SMN register transport (a write-then-read against a driver file)
  is an external collaborator; it is passed in as an opaque function
  `smn : Nat → Nat` from register address to register value, exactly as
  the spec's register-reader contract describes.
* Byte buffers (the AML stream) are lists of naturals, one per byte.
-/

/-- `bit_slice` from Linux/src/util.c: extract the inclusive bit range
`[lo, hi]` of a 32-bit word, right-aligned; returns 0 when the width
`hi - lo + 1` is non-positive or exceeds 32. -/
def bit_slice (val : Nat) (hi lo : Int) : Nat :=
  let width : Int := hi - lo + 1
  if width ≤ 0 ∨ 32 < width then 0
  else
    let mask : Nat := if width = 32 then 0xFFFFFFFF else (1 <<< width.toNat) - 1
    (val >>> lo.toNat) &&& mask

/-- Record capacity for per-core arrays (MAX_CORES in types.h). -/
def MAX_CORES : Nat := 16

/-- The fields of `smu_metrics_t` (types.h) that `pm_table_read` writes.
A list field models the C fixed-capacity array together with its count:
the list holds exactly the `count` valid leading entries. -/
structure smu_metrics where
  package_power_w : ℚ := 0
  ppt_w : ℚ := 0
  package_current_a : ℚ := 0
  vcore : ℚ := 0
  vsoc : ℚ := 0
  vddp : ℚ := 0
  vddg_ccd : ℚ := 0
  vddg_iod : ℚ := 0
  vdd_misc : ℚ := 0
  vid : ℚ := 0
  core_clock_mhz : ℚ := 0
  fclk_mhz : ℚ := 0
  uclk_mhz : ℚ := 0
  mclk_mhz : ℚ := 0
  core_clocks_ghz : List ℚ := []
  cpu_temp_c : ℚ := 0
  core_temps_c : List ℚ := []
  tdie_c : ℚ := 0
  has_tdie : Bool := false
  iod_hotspot_c : ℚ := 0
  has_iod_hotspot : Bool := false
  core_voltages : List ℚ := []

/-- The all-zero metrics record: what `memset(out, 0, sizeof(*out))`
produces (every numeric field 0, every count 0, every flag false). -/
def zero_metrics : smu_metrics := {}

/-- Field selectors for named PM table entries (enum in pm_table.c). -/
inductive pm_field where
  | F_FCLK | F_UCLK | F_MCLK | F_VSOC | F_VDDP | F_VDDG_IOD | F_VDDG_CCD
  | F_VDD_MISC | F_VCORE | F_IOD_HOTSPOT
  deriving DecidableEq

/-- `pm_family_map_t` from pm_table.c: a per-silicon-family layout
descriptor.  `named` holds the `named_count` valid entries of the C
array. -/
structure pm_family_map where
  named : List (Nat × pm_field)
  vid_idx : Nat
  ppt_idx : Nat
  socket_power_idx : Nat
  core_voltage_start : Nat
  core_temp_start : Nat
  max_cores : Nat

/-- Granite Ridge layout (default/fallback). -/
def GRANITE_RIDGE : pm_family_map :=
  { named := [(11, .F_IOD_HOTSPOT), (58, .F_VDD_MISC), (71, .F_FCLK), (75, .F_UCLK),
              (79, .F_MCLK), (83, .F_VSOC), (259, .F_VDDG_IOD), (261, .F_VDDG_CCD),
              (269, .F_VDDP), (271, .F_VCORE)],
    vid_idx := 275, ppt_idx := 3, socket_power_idx := 29,
    core_voltage_start := 309, core_temp_start := 317, max_cores := 8 }

/-- Vermeer 0x380804 layout. -/
def VERMEER_380804 : pm_family_map :=
  { named := [(11, .F_IOD_HOTSPOT), (48, .F_FCLK), (50, .F_UCLK), (51, .F_MCLK),
              (44, .F_VSOC), (137, .F_VDDP), (138, .F_VDDG_IOD), (139, .F_VDDG_CCD),
              (40, .F_VCORE)],
    vid_idx := 10, ppt_idx := 1, socket_power_idx := 29,
    core_voltage_start := 185, core_temp_start := 201, max_cores := 16 }

/-- Vermeer 0x380805 layout. -/
def VERMEER_380805 : pm_family_map :=
  { named := [(11, .F_IOD_HOTSPOT), (48, .F_FCLK), (50, .F_UCLK), (51, .F_MCLK),
              (44, .F_VSOC), (137, .F_VDDP), (138, .F_VDDG_IOD), (139, .F_VDDG_CCD),
              (39, .F_VCORE)],
    vid_idx := 10, ppt_idx := 1, socket_power_idx := 29,
    core_voltage_start := 188, core_temp_start := 204, max_cores := 16 }

/-- Vermeer 0x380904 layout. -/
def VERMEER_380904 : pm_family_map :=
  { named := [(11, .F_IOD_HOTSPOT), (48, .F_FCLK), (50, .F_UCLK), (51, .F_MCLK),
              (44, .F_VSOC), (137, .F_VDDP), (138, .F_VDDG_IOD), (139, .F_VDDG_CCD),
              (40, .F_VCORE)],
    vid_idx := 10, ppt_idx := 1, socket_power_idx := 29,
    core_voltage_start := 177, core_temp_start := 185, max_cores := 8 }

/-- Vermeer 0x380905 layout. -/
def VERMEER_380905 : pm_family_map :=
  { named := [(11, .F_IOD_HOTSPOT), (48, .F_FCLK), (50, .F_UCLK), (51, .F_MCLK),
              (44, .F_VSOC), (137, .F_VDDP), (138, .F_VDDG_IOD), (139, .F_VDDG_CCD),
              (39, .F_VCORE)],
    vid_idx := 10, ppt_idx := 1, socket_power_idx := 29,
    core_voltage_start := 180, core_temp_start := 188, max_cores := 8 }

/-- Cezanne 0x400005 layout. -/
def CEZANNE_400005 : pm_family_map :=
  { named := [(29, .F_IOD_HOTSPOT), (409, .F_FCLK), (410, .F_UCLK), (411, .F_MCLK),
              (102, .F_VSOC), (565, .F_VDDP), (98, .F_VCORE)],
    vid_idx := 28, ppt_idx := 5, socket_power_idx := 38,
    core_voltage_start := 208, core_temp_start := 216, max_cores := 8 }

/-- Matisse 0x240903 layout. -/
def MATISSE_240903 : pm_family_map :=
  { named := [(11, .F_IOD_HOTSPOT), (48, .F_FCLK), (50, .F_UCLK), (51, .F_MCLK),
              (44, .F_VSOC), (125, .F_VDDP), (126, .F_VDDG_IOD), (39, .F_VCORE)],
    vid_idx := 10, ppt_idx := 1, socket_power_idx := 29,
    core_voltage_start := 155, core_temp_start := 163, max_cores := 8 }

/-- Matisse 0x240803 layout. -/
def MATISSE_240803 : pm_family_map :=
  { named := [(11, .F_IOD_HOTSPOT), (48, .F_FCLK), (50, .F_UCLK), (51, .F_MCLK),
              (44, .F_VSOC), (125, .F_VDDP), (126, .F_VDDG_IOD), (40, .F_VCORE)],
    vid_idx := 10, ppt_idx := 1, socket_power_idx := 29,
    core_voltage_start := 163, core_temp_start := 179, max_cores := 16 }

/-- Renoir 0x370003 layout. -/
def RENOIR_370003 : pm_family_map :=
  { named := [(29, .F_IOD_HOTSPOT), (371, .F_FCLK), (372, .F_UCLK), (373, .F_MCLK),
              (101, .F_VSOC), (527, .F_VDDP), (97, .F_VCORE)],
    vid_idx := 28, ppt_idx := 5, socket_power_idx := 38,
    core_voltage_start := 200, core_temp_start := 208, max_cores := 8 }

/-- Renoir 0x370005 layout. -/
def RENOIR_370005 : pm_family_map :=
  { named := [(29, .F_IOD_HOTSPOT), (378, .F_FCLK), (379, .F_UCLK), (380, .F_MCLK),
              (101, .F_VSOC), (534, .F_VDDP), (97, .F_VCORE)],
    vid_idx := 28, ppt_idx := 5, socket_power_idx := 38,
    core_voltage_start := 207, core_temp_start := 215, max_cores := 8 }

/-- Raven Ridge 0x1E0004 layout. -/
def RAVEN_1E0004 : pm_family_map :=
  { named := [(61, .F_IOD_HOTSPOT), (166, .F_FCLK), (167, .F_UCLK), (168, .F_MCLK),
              (65, .F_VSOC), (60, .F_VDDP), (61, .F_VCORE)],
    vid_idx := 57, ppt_idx := 5, socket_power_idx := 38,
    core_voltage_start := 104, core_temp_start := 108, max_cores := 4 }

/-- `get_family_map` from pm_table.c: total lookup from PM table version
to layout descriptor; unrecognized versions fall back to Granite Ridge. -/
def get_family_map (version : Nat) : pm_family_map :=
  if version = 0x380804 then VERMEER_380804
  else if version = 0x380805 then VERMEER_380805
  else if version = 0x380904 then VERMEER_380904
  else if version = 0x380905 then VERMEER_380905
  else if version = 0x400005 then CEZANNE_400005
  else if version = 0x240903 then MATISSE_240903
  else if version = 0x240803 then MATISSE_240803
  else if version = 0x370003 then RENOIR_370003
  else if version = 0x370005 then RENOIR_370005
  else if version = 0x1E0004 then RAVEN_1E0004
  else GRANITE_RIDGE

/-- `safe_get` from pm_table.c: bounds-checked table access, 0 for an
out-of-range index. -/
def safe_get (t : List ℚ) (idx : Nat) : ℚ := t.getD idx 0

/-- One iteration of the `apply_named` loop in pm_table.c: route the value
at the entry's table index into the named metrics field; the IOD hotspot
is only accepted in [1, 150] and sets its presence flag. -/
def apply_named_step (t : List ℚ) (m : smu_metrics) (e : Nat × pm_field) : smu_metrics :=
  let v := safe_get t e.1
  match e.2 with
  | .F_FCLK => { m with fclk_mhz := v }
  | .F_UCLK => { m with uclk_mhz := v }
  | .F_MCLK => { m with mclk_mhz := v }
  | .F_VSOC => { m with vsoc := v }
  | .F_VDDP => { m with vddp := v }
  | .F_VDDG_IOD => { m with vddg_iod := v }
  | .F_VDDG_CCD => { m with vddg_ccd := v }
  | .F_VDD_MISC => { m with vdd_misc := v }
  | .F_VCORE => { m with vcore := v }
  | .F_IOD_HOTSPOT =>
      if 1 ≤ v ∧ v ≤ 150 then { m with iod_hotspot_c := v, has_iod_hotspot := true }
      else m

/-- `apply_named` from pm_table.c: apply every named entry of the family
map in order. -/
def apply_named (map : pm_family_map) (t : List ℚ) (m : smu_metrics) : smu_metrics :=
  map.named.foldl (apply_named_step t) m

/-- `read_granite_ridge_offsets` from pm_table.c: byte-offset based
reading for Granite Ridge (float index = byte offset / 4). -/
def read_granite_ridge_offsets (t : List ℚ) (m : smu_metrics) : smu_metrics :=
  { m with
    fclk_mhz := safe_get t (0x11C / 4),
    uclk_mhz := safe_get t (0x12C / 4),
    mclk_mhz := safe_get t (0x13C / 4),
    vsoc := safe_get t (0x14C / 4),
    vddp := safe_get t (0x434 / 4),
    vddg_iod := safe_get t (0x40C / 4),
    vddg_ccd := safe_get t (0x414 / 4),
    vdd_misc := safe_get t (0xE8 / 4),
    vcore := safe_get t (0x43C / 4) }

/-- The candidate loop shared by the `try_plausible_*` helpers and the
PPT scan of pm_table.c: the first candidate index whose value lies in
`[lo, hi]`, or none. -/
def first_plausible_value (t : List ℚ) (cands : List Nat) (lo hi : ℚ) : Option ℚ :=
  match cands with
  | [] => none
  | c :: rest =>
      let v := safe_get t c
      if lo ≤ v ∧ v ≤ hi then some v else first_plausible_value t rest lo hi

/-- `try_plausible_power` from pm_table.c (0 when no candidate is in
range). -/
def try_plausible_power (t : List ℚ) : ℚ :=
  (first_plausible_value t [29, 1, 13, 38, 5, 220, 187, 42, 0] 0.5 400).getD 0

/-- `try_plausible_current` from pm_table.c. -/
def try_plausible_current (t : List ℚ) : ℚ :=
  (first_plausible_value t [41, 46, 3, 10, 11, 4] 0.5 200).getD 0

/-- `try_plausible_temp` from pm_table.c. -/
def try_plausible_temp (t : List ℚ) : ℚ :=
  (first_plausible_value t [1, 448, 449] 1 150).getD 0

/-- PPT candidate scan of `read_known_indices` (pm_table.c): set `ppt_w`
to the first in-range candidate, leave it unchanged when none fits. -/
def rki_ppt (t : List ℚ) (m : smu_metrics) : smu_metrics :=
  match first_plausible_value t [3, 1, 13, 29, 5, 38] 0.5 400 with
  | some v => { m with ppt_w := v }
  | none => m

/-- Core temperature block of `read_known_indices`: indices 317-324. -/
def rki_core_temps (t : List ℚ) (m : smu_metrics) : smu_metrics :=
  if 324 < t.length then
    { m with core_temps_c := (List.range 8).map fun i => t.getD (317 + i) 0 }
  else m

/-- Tdie block of `read_known_indices`: sensor pair at indices 448-449. -/
def rki_tdie (t : List ℚ) (m : smu_metrics) : smu_metrics :=
  if 449 < t.length then
    let a := t.getD 448 0
    let b := t.getD 449 0
    if 1 ≤ a ∧ a ≤ 150 then { m with tdie_c := a, has_tdie := true }
    else if 1 ≤ b ∧ b ≤ 150 then { m with tdie_c := b, has_tdie := true }
    else if 0 < a ∧ 0 < b then { m with tdie_c := (a + b) * 0.5, has_tdie := true }
    else m
  else m

/-- Core clock block of `read_known_indices`: indices 325-340 (GHz). -/
def rki_core_clocks (t : List ℚ) (m : smu_metrics) : smu_metrics :=
  if 340 < t.length then
    { m with core_clocks_ghz := (List.range 16).map fun i => t.getD (325 + i) 0 }
  else m

/-- VID block of `read_known_indices`: index 275. -/
def rki_vid (t : List ℚ) (m : smu_metrics) : smu_metrics :=
  if 275 < t.length then { m with vid := t.getD 275 0 } else m

/-- Core voltage block of `read_known_indices`: indices 309-316. -/
def rki_core_voltages (t : List ℚ) (m : smu_metrics) : smu_metrics :=
  if 316 < t.length then
    { m with core_voltages := (List.range 8).map fun i => t.getD (309 + i) 0 }
  else m

/-- IOD hotspot block of `read_known_indices`: index 11, accepted only in
[1, 150], setting the presence flag. -/
def rki_iod_hotspot (t : List ℚ) (m : smu_metrics) : smu_metrics :=
  if 11 < t.length then
    let v := t.getD 11 0
    if 1 ≤ v ∧ v ≤ 150 then { m with iod_hotspot_c := v, has_iod_hotspot := true }
    else m
  else m

/-- `read_known_indices` from pm_table.c: the fixed (Granite-Ridge
layout) index pass, applied in both decoder branches. -/
def read_known_indices (t : List ℚ) (m : smu_metrics) : smu_metrics :=
  rki_iod_hotspot t (rki_core_voltages t (rki_vid t (rki_core_clocks t
    (rki_tdie t (rki_core_temps t (rki_ppt t m))))))

/-- Package power/current assignments of the Granite Ridge branch of
`pm_table_read`. -/
def gr_power_stage (t : List ℚ) (m : smu_metrics) : smu_metrics :=
  { m with package_power_w := try_plausible_power t,
           package_current_a := try_plausible_current t }

/-- Core clock derivation of the Granite Ridge branch of `pm_table_read`:
take the running maximum of the per-core clocks (starting from 0, strict
improvement as in the C loop) and accept it only in [0.5, 6.5] GHz. -/
def gr_core_clock_stage (m : smu_metrics) : smu_metrics :=
  if 0 < m.core_clocks_ghz.length then
    let max_ghz := m.core_clocks_ghz.foldl (fun acc x => if acc < x then x else acc) 0
    if 0.5 ≤ max_ghz ∧ max_ghz ≤ 6.5 then { m with core_clock_mhz := max_ghz * 1000 }
    else m
  else m

/-- CPU temperature assignment of the Granite Ridge branch of
`pm_table_read`. -/
def gr_cpu_temp_stage (t : List ℚ) (m : smu_metrics) : smu_metrics :=
  if m.has_tdie ∧ 0 < m.tdie_c then { m with cpu_temp_c := m.tdie_c }
  else { m with cpu_temp_c := try_plausible_temp t }

/-- The `codename_index == 23` (Granite Ridge) branch of `pm_table_read`. -/
def pm_granite_branch (t : List ℚ) : smu_metrics :=
  gr_cpu_temp_stage t (gr_core_clock_stage (gr_power_stage t
    (read_known_indices t (read_granite_ridge_offsets t zero_metrics))))

/-- Per-family core temperature/voltage arrays of the generic branch of
`pm_table_read`: clamped to `min(map.max_cores, MAX_CORES)` entries, and
only written when the whole block fits inside the table. -/
def gen_core_arrays (map : pm_family_map) (t : List ℚ) (m : smu_metrics) : smu_metrics :=
  let nc := min map.max_cores MAX_CORES
  let m1 := if map.core_temp_start + nc ≤ t.length then
      { m with core_temps_c := (List.range nc).map fun i => t.getD (map.core_temp_start + i) 0 }
    else m
  if map.core_voltage_start + nc ≤ t.length then
    { m1 with core_voltages := (List.range nc).map fun i => t.getD (map.core_voltage_start + i) 0 }
  else m1

/-- VID assignment of the generic branch (only positive values). -/
def gen_vid (map : pm_family_map) (t : List ℚ) (m : smu_metrics) : smu_metrics :=
  if 0 < safe_get t map.vid_idx then { m with vid := safe_get t map.vid_idx } else m

/-- PPT assignment of the generic branch (only in [0.5, 400] W). -/
def gen_ppt (map : pm_family_map) (t : List ℚ) (m : smu_metrics) : smu_metrics :=
  let v := safe_get t map.ppt_idx
  if 0.5 ≤ v ∧ v ≤ 400 then { m with ppt_w := v } else m

/-- Socket power assignment of the generic branch, with plausibility
fallback. -/
def gen_power (map : pm_family_map) (t : List ℚ) (m : smu_metrics) : smu_metrics :=
  let sp := safe_get t map.socket_power_idx
  if 0.5 ≤ sp ∧ sp ≤ 400 then { m with package_power_w := sp }
  else { m with package_power_w := try_plausible_power t }

/-- Package current and CPU temperature assignments of the generic
branch. -/
def gen_current_temp (t : List ℚ) (m : smu_metrics) : smu_metrics :=
  { m with package_current_a := try_plausible_current t,
           cpu_temp_c := try_plausible_temp t }

/-- The generic (non-Granite-Ridge) branch of `pm_table_read`: family-map
named pass, per-family core arrays, scalar fields, heuristics, then the
fixed `read_known_indices` pass. -/
def pm_generic_branch (version : Nat) (t : List ℚ) : smu_metrics :=
  let map := get_family_map version
  read_known_indices t (gen_current_temp t (gen_power map t (gen_ppt map t
    (gen_vid map t (gen_core_arrays map t (apply_named map t zero_metrics))))))

/-- `pm_table_read` from pm_table.c: zero the output, stop on an absent
or too-short table, then decode along the Granite-Ridge or generic
branch.  The C `(table, count)` pair is modelled as `Option (List ℚ)`:
`none` is a null table pointer and the list holds the `count` floats. -/
def pm_table_read (version : Nat) (table : Option (List ℚ)) (codename_index : Int) :
    smu_metrics :=
  match table with
  | none => zero_metrics
  | some t =>
      if t.length < 4 then zero_metrics
      else if codename_index = 23 then pm_granite_branch t
      else pm_generic_branch version t

/-- The fields of `dram_timings_t` (types.h).  `phy_rdl_per_channel` is
modelled as the list of its `phy_rdl_channel_count` valid entries;
`cmd2t` (a C `char[4]`) is a string. -/
structure dram_timings where
  tcl : Nat := 0
  trcd_rd : Nat := 0
  trcd_wr : Nat := 0
  trp : Nat := 0
  tras : Nat := 0
  trc : Nat := 0
  trrds : Nat := 0
  trrdl : Nat := 0
  tfaw : Nat := 0
  twr : Nat := 0
  tcwl : Nat := 0
  rtp : Nat := 0
  wtrs : Nat := 0
  wtrl : Nat := 0
  rdwr : Nat := 0
  wrrd : Nat := 0
  rdrd_scl : Nat := 0
  wrwr_scl : Nat := 0
  rdrd_sc : Nat := 0
  rdrd_sd : Nat := 0
  rdrd_dd : Nat := 0
  wrwr_sc : Nat := 0
  wrwr_sd : Nat := 0
  wrwr_dd : Nat := 0
  refi : Nat := 0
  wrpre : Nat := 0
  rdpre : Nat := 0
  trc_page : Nat := 0
  mod : Nat := 0
  mod_pda : Nat := 0
  mrd : Nat := 0
  mrd_pda : Nat := 0
  stag : Nat := 0
  stag_sb : Nat := 0
  cke : Nat := 0
  xp : Nat := 0
  phy_wrd : Nat := 0
  phy_wrl : Nat := 0
  phy_rdl : Nat := 0
  phy_rdl_per_channel : List Nat := []
  rfc : Nat := 0
  rfc2 : Nat := 0
  rfcsb : Nat := 0
  trefi_ns : ℚ := 0
  trfc_ns : ℚ := 0
  trfc2_ns : ℚ := 0
  trfcsb_ns : ℚ := 0
  gdm_enabled : Bool := false
  power_down_enabled : Bool := false
  cmd2t : String := ""
  frequency_hint_mhz : ℚ := 0

/-- The all-zero timing record produced by `memset(out, 0, sizeof(*out))`
in `dram_read_timings`. -/
def zero_timings : dram_timings := {}

/-- `to_nanoseconds` from dram.c: 0 for a non-positive frequency;
otherwise `cycles * 2000 / freq_mhz`, halved when that exceeds the raw
cycle count. -/
def to_nanoseconds (cycles : Nat) (freq_mhz : ℚ) : ℚ :=
  if freq_mhz ≤ 0 then 0
  else
    let ns := (cycles : ℚ) * 2000 / freq_mhz
    if (cycles : ℚ) < ns then ns / 2 else ns

/-- `read_common_timings` from dram.c: read the fixed SMN register set at
`offset | suboffset` through the caller-supplied register reader and
slice the named bit ranges into the timing fields. -/
def read_common_timings (smn : Nat → Nat) (offset : Nat) (d : dram_timings) :
    dram_timings :=
  let reg50204 := smn (offset ||| 0x50204)
  let reg50208 := smn (offset ||| 0x50208)
  let reg5020C := smn (offset ||| 0x5020C)
  let reg50210 := smn (offset ||| 0x50210)
  let reg50214 := smn (offset ||| 0x50214)
  let reg50218 := smn (offset ||| 0x50218)
  let reg5021C := smn (offset ||| 0x5021C)
  let reg50220 := smn (offset ||| 0x50220)
  let reg50224 := smn (offset ||| 0x50224)
  let reg50228 := smn (offset ||| 0x50228)
  let reg50230 := smn (offset ||| 0x50230)
  let reg50234 := smn (offset ||| 0x50234)
  let reg50250 := smn (offset ||| 0x50250)
  let reg50254 := smn (offset ||| 0x50254)
  let reg50258 := smn (offset ||| 0x50258)
  let reg502A4 := smn (offset ||| 0x502A4)
  let trcd_rd := bit_slice reg50204 21 16
  let trcd_wr0 := bit_slice reg50204 29 24
  let wtrs := bit_slice reg50214 12 8
  let twr0 := bit_slice reg50218 7 0
  { d with
    tcl := bit_slice reg50204 5 0,
    trcd_rd := trcd_rd,
    trcd_wr := if trcd_wr0 = 0 then trcd_rd else trcd_wr0,
    tras := bit_slice reg50204 14 8,
    trp := bit_slice reg50208 21 16,
    trc := bit_slice reg50208 7 0,
    trrds := bit_slice reg5020C 4 0,
    trrdl := bit_slice reg5020C 12 8,
    tfaw := bit_slice reg50210 7 0,
    rtp := bit_slice reg5020C 28 24,
    wtrs := wtrs,
    wtrl := bit_slice reg50214 22 16,
    tcwl := bit_slice reg50214 5 0,
    twr := if twr0 = 0 then wtrs else twr0,
    trc_page := bit_slice reg5021C 31 20,
    rdrd_scl := bit_slice reg50220 29 24,
    rdrd_sc := bit_slice reg50220 19 16,
    rdrd_sd := bit_slice reg50220 11 8,
    rdrd_dd := bit_slice reg50220 3 0,
    wrwr_scl := bit_slice reg50224 29 24,
    wrwr_sc := bit_slice reg50224 19 16,
    wrwr_sd := bit_slice reg50224 11 8,
    wrwr_dd := bit_slice reg50224 3 0,
    rdwr := bit_slice reg50228 13 8,
    wrrd := bit_slice reg50228 3 0,
    refi := bit_slice reg50230 15 0,
    mod_pda := bit_slice reg50234 29 24,
    mrd_pda := bit_slice reg50234 21 16,
    mod := bit_slice reg50234 13 8,
    mrd := bit_slice reg50234 5 0,
    stag := bit_slice reg50250 26 16,
    stag_sb := bit_slice reg50250 8 0,
    cke := bit_slice reg50254 28 24,
    xp := bit_slice reg50254 5 0,
    phy_wrd := bit_slice reg50258 26 24,
    phy_rdl := bit_slice reg50258 23 16,
    phy_wrl := bit_slice reg50258 15 8,
    wrpre := bit_slice reg502A4 10 8,
    rdpre := bit_slice reg502A4 2 0 }

/-- `read_ddr5_timings` from dram.c: ratio-derived frequency, mode flags,
common timings, redundant-register refresh selection, and nanosecond
conversions. -/
def read_ddr5_timings (smn : Nat → Nat) (d : dram_timings) : dram_timings :=
  let offset : Nat := 0
  let ratio_reg := smn (offset ||| 0x50200)
  let ratio : ℚ := (bit_slice ratio_reg 15 0 : ℚ) / 100
  let mem_freq := ratio * 200
  let cmd2t_bit := bit_slice ratio_reg 17 17
  let refresh_reg := smn (offset ||| 0x5012C)
  let d1 := { d with
    frequency_hint_mhz := mem_freq,
    gdm_enabled := bit_slice ratio_reg 18 18 = 1,
    cmd2t := if cmd2t_bit ≠ 0 then "2T" else "1T",
    power_down_enabled := bit_slice refresh_reg 28 28 = 1 }
  let d2 := read_common_timings smn offset d1
  let trfc_regs := [smn (offset ||| 0x50260), smn (offset ||| 0x50264),
                    smn (offset ||| 0x50268), smn (offset ||| 0x5026C)]
  let trfc_reg := (trfc_regs.find? fun r => r ≠ 0x00C00138).getD 0
  let d3 := if trfc_reg ≠ 0 then
      { d2 with rfc := bit_slice trfc_reg 15 0, rfc2 := bit_slice trfc_reg 31 16 }
    else d2
  let rfcsb_regs := [bit_slice (smn (offset ||| 0x502C0)) 10 0,
                     bit_slice (smn (offset ||| 0x502C4)) 10 0,
                     bit_slice (smn (offset ||| 0x502C8)) 10 0,
                     bit_slice (smn (offset ||| 0x502CC)) 10 0]
  let d4 := match rfcsb_regs.find? fun r => r ≠ 0 with
    | some r => { d3 with rfcsb := r }
    | none => d3
  { d4 with
    trefi_ns := to_nanoseconds d4.refi mem_freq,
    trfc_ns := to_nanoseconds d4.rfc mem_freq,
    trfc2_ns := to_nanoseconds d4.rfc2 mem_freq,
    trfcsb_ns := to_nanoseconds d4.rfcsb mem_freq }

/-- `read_ddr4_timings` from dram.c: common timings, two-candidate
refresh selection, no frequency derivation and no mode-flag decoding. -/
def read_ddr4_timings (smn : Nat → Nat) (d : dram_timings) : dram_timings :=
  let offset : Nat := 0
  let d1 := read_common_timings smn offset d
  let trfc0 := smn (offset ||| 0x50260)
  let trfc1 := smn (offset ||| 0x50264)
  let trfc_reg := if trfc0 ≠ trfc1 then (if trfc0 ≠ 0x21060138 then trfc0 else trfc1)
                  else trfc0
  let d2 := if trfc_reg ≠ 0 then
      { d1 with rfc := bit_slice trfc_reg 10 0, rfc2 := bit_slice trfc_reg 21 11 }
    else d1
  { d2 with cmd2t := "", frequency_hint_mhz := 0 }

/-- `dram_read_timings` from dram.c: zero the record, then dispatch on
the codename index — 23 is the DDR5 path, the six DDR4 desktop/HEDT
codenames take the DDR4 path, everything else keeps the zero record. -/
def dram_read_timings (smn : Nat → Nat) (codename_index : Int) : dram_timings :=
  if codename_index = 23 then read_ddr5_timings smn zero_timings
  else if codename_index = 4 ∨ codename_index = 9 ∨ codename_index = 10 ∨
          codename_index = 12 ∨ codename_index = 18 ∨ codename_index = 19 then
    read_ddr4_timings smn zero_timings
  else zero_timings

/-- The 7-byte AML signature for `OpRegion (AODE, SystemMemory, ...)`
(aod_voltages.c): DefOpRegion opcode, NameSeg AODE, RegionSpace
SystemMemory. -/
def aode_pattern : List Nat := [0x5B, 0x80, 0x41, 0x4F, 0x44, 0x45, 0x00]

/-- The fixed size of the AODE region (AOD_REGION_SIZE in
aod_voltages.c); it is a compile-time constant, not parsed from the
bytecode. -/
def AOD_REGION_SIZE : Nat := 0x24BB

/-- A little-endian integer read of `n` bytes starting at `start`
(the `memcpy` of the address operand in aod_voltages.c). -/
def le_decode (aml : List Nat) (start n : Nat) : Nat :=
  (List.range n).foldl (fun acc k => acc + aml.getD (start + k) 0 <<< (8 * k)) 0

/-- The `memcmp` against `aode_pattern` at position `i`. -/
def matches_at (aml : List Nat) (i : Nat) : Bool :=
  (List.range 7).all fun k => aml.getD (i + k) 0 == aode_pattern.getD k 0

/-- The scan loop of `find_aod_phys` (aod_voltages.c) from position `i`:
linear search for the signature within
`[i, aml_len - pattern_len - 10)`; after a match the one encoding-tag
byte selects a 4-byte (tag 0x0C) or 8-byte (tag 0x0E) little-endian
address operand, and any other tag continues the scan. -/
def find_aode_from (aml : List Nat) (i : Nat) : Option Nat :=
  if h : i + 7 + 10 < aml.length then
    if matches_at aml i then
      let enc := aml.getD (i + 7) 0
      if enc = 0x0C then some (le_decode aml (i + 8) 4)
      else if enc = 0x0E then some (le_decode aml (i + 8) 8)
      else find_aode_from aml (i + 1)
    else find_aode_from aml (i + 1)
  else none
termination_by aml.length - i
decreasing_by all_goals omega

/-- The per-buffer result of `find_aod_phys`: the first recovered
physical address paired with the fixed region-size constant. -/
def find_aod_phys (aml : List Nat) : Option (Nat × Nat) :=
  (find_aode_from aml 0).map fun a => (a, AOD_REGION_SIZE)

/-! ### Field characterization lemmas for the `read_known_indices` blocks -/

theorem rki_ppt_fields (t : List ℚ) (m : smu_metrics) :
    (rki_ppt t m).core_temps_c = m.core_temps_c ∧
    (rki_ppt t m).core_voltages = m.core_voltages ∧
    (rki_ppt t m).core_clocks_ghz = m.core_clocks_ghz ∧
    (rki_ppt t m).vid = m.vid ∧
    (rki_ppt t m).core_clock_mhz = m.core_clock_mhz ∧
    (rki_ppt t m).iod_hotspot_c = m.iod_hotspot_c ∧
    (rki_ppt t m).has_iod_hotspot = m.has_iod_hotspot := by
  unfold rki_ppt
  cases first_plausible_value t [3, 1, 13, 29, 5, 38] 0.5 400 <;> simp

theorem rki_core_temps_fields (t : List ℚ) (m : smu_metrics) :
    (rki_core_temps t m).core_temps_c =
      (if 324 < t.length then (List.range 8).map fun i => t.getD (317 + i) 0
       else m.core_temps_c) ∧
    (rki_core_temps t m).core_voltages = m.core_voltages ∧
    (rki_core_temps t m).core_clocks_ghz = m.core_clocks_ghz ∧
    (rki_core_temps t m).vid = m.vid ∧
    (rki_core_temps t m).core_clock_mhz = m.core_clock_mhz ∧
    (rki_core_temps t m).iod_hotspot_c = m.iod_hotspot_c ∧
    (rki_core_temps t m).has_iod_hotspot = m.has_iod_hotspot := by
  simp only [rki_core_temps]
  split_ifs <;> simp

theorem rki_tdie_fields (t : List ℚ) (m : smu_metrics) :
    (rki_tdie t m).core_temps_c = m.core_temps_c ∧
    (rki_tdie t m).core_voltages = m.core_voltages ∧
    (rki_tdie t m).core_clocks_ghz = m.core_clocks_ghz ∧
    (rki_tdie t m).vid = m.vid ∧
    (rki_tdie t m).core_clock_mhz = m.core_clock_mhz ∧
    (rki_tdie t m).iod_hotspot_c = m.iod_hotspot_c ∧
    (rki_tdie t m).has_iod_hotspot = m.has_iod_hotspot := by
  simp only [rki_tdie]
  split_ifs <;> simp

theorem rki_core_clocks_fields (t : List ℚ) (m : smu_metrics) :
    (rki_core_clocks t m).core_temps_c = m.core_temps_c ∧
    (rki_core_clocks t m).core_voltages = m.core_voltages ∧
    (rki_core_clocks t m).core_clocks_ghz =
      (if 340 < t.length then (List.range 16).map fun i => t.getD (325 + i) 0
       else m.core_clocks_ghz) ∧
    (rki_core_clocks t m).vid = m.vid ∧
    (rki_core_clocks t m).core_clock_mhz = m.core_clock_mhz ∧
    (rki_core_clocks t m).iod_hotspot_c = m.iod_hotspot_c ∧
    (rki_core_clocks t m).has_iod_hotspot = m.has_iod_hotspot := by
  simp only [rki_core_clocks]
  split_ifs <;> simp

theorem rki_vid_fields (t : List ℚ) (m : smu_metrics) :
    (rki_vid t m).core_temps_c = m.core_temps_c ∧
    (rki_vid t m).core_voltages = m.core_voltages ∧
    (rki_vid t m).core_clocks_ghz = m.core_clocks_ghz ∧
    (rki_vid t m).vid = (if 275 < t.length then t.getD 275 0 else m.vid) ∧
    (rki_vid t m).core_clock_mhz = m.core_clock_mhz ∧
    (rki_vid t m).iod_hotspot_c = m.iod_hotspot_c ∧
    (rki_vid t m).has_iod_hotspot = m.has_iod_hotspot := by
  simp only [rki_vid]
  split_ifs <;> simp

theorem rki_core_voltages_fields (t : List ℚ) (m : smu_metrics) :
    (rki_core_voltages t m).core_temps_c = m.core_temps_c ∧
    (rki_core_voltages t m).core_voltages =
      (if 316 < t.length then (List.range 8).map fun i => t.getD (309 + i) 0
       else m.core_voltages) ∧
    (rki_core_voltages t m).core_clocks_ghz = m.core_clocks_ghz ∧
    (rki_core_voltages t m).vid = m.vid ∧
    (rki_core_voltages t m).core_clock_mhz = m.core_clock_mhz ∧
    (rki_core_voltages t m).iod_hotspot_c = m.iod_hotspot_c ∧
    (rki_core_voltages t m).has_iod_hotspot = m.has_iod_hotspot := by
  simp only [rki_core_voltages]
  split_ifs <;> simp

theorem rki_iod_hotspot_fields (t : List ℚ) (m : smu_metrics) :
    (rki_iod_hotspot t m).core_temps_c = m.core_temps_c ∧
    (rki_iod_hotspot t m).core_voltages = m.core_voltages ∧
    (rki_iod_hotspot t m).core_clocks_ghz = m.core_clocks_ghz ∧
    (rki_iod_hotspot t m).vid = m.vid ∧
    (rki_iod_hotspot t m).core_clock_mhz = m.core_clock_mhz ∧
    (rki_iod_hotspot t m).iod_hotspot_c =
      (if 11 < t.length then
        (if 1 ≤ t.getD 11 0 ∧ t.getD 11 0 ≤ 150 then t.getD 11 0 else m.iod_hotspot_c)
       else m.iod_hotspot_c) ∧
    (rki_iod_hotspot t m).has_iod_hotspot =
      (if 11 < t.length then
        (if 1 ≤ t.getD 11 0 ∧ t.getD 11 0 ≤ 150 then true else m.has_iod_hotspot)
       else m.has_iod_hotspot) := by
  simp only [rki_iod_hotspot]
  split_ifs <;> simp

theorem read_known_indices_fields (t : List ℚ) (m : smu_metrics) :
    (read_known_indices t m).core_temps_c =
      (if 324 < t.length then (List.range 8).map fun i => t.getD (317 + i) 0
       else m.core_temps_c) ∧
    (read_known_indices t m).core_voltages =
      (if 316 < t.length then (List.range 8).map fun i => t.getD (309 + i) 0
       else m.core_voltages) ∧
    (read_known_indices t m).core_clocks_ghz =
      (if 340 < t.length then (List.range 16).map fun i => t.getD (325 + i) 0
       else m.core_clocks_ghz) ∧
    (read_known_indices t m).vid = (if 275 < t.length then t.getD 275 0 else m.vid) ∧
    (read_known_indices t m).core_clock_mhz = m.core_clock_mhz ∧
    (read_known_indices t m).iod_hotspot_c =
      (if 11 < t.length then
        (if 1 ≤ t.getD 11 0 ∧ t.getD 11 0 ≤ 150 then t.getD 11 0 else m.iod_hotspot_c)
       else m.iod_hotspot_c) ∧
    (read_known_indices t m).has_iod_hotspot =
      (if 11 < t.length then
        (if 1 ≤ t.getD 11 0 ∧ t.getD 11 0 ≤ 150 then true else m.has_iod_hotspot)
       else m.has_iod_hotspot) := by
  simp only [read_known_indices, rki_iod_hotspot_fields, rki_core_voltages_fields,
    rki_vid_fields, rki_core_clocks_fields, rki_tdie_fields, rki_core_temps_fields,
    rki_ppt_fields]
  simp

/-! ### Field lemmas for the branch stages of `pm_table_read` -/

theorem read_granite_ridge_offsets_fields (t : List ℚ) (m : smu_metrics) :
    (read_granite_ridge_offsets t m).core_temps_c = m.core_temps_c ∧
    (read_granite_ridge_offsets t m).core_voltages = m.core_voltages ∧
    (read_granite_ridge_offsets t m).core_clocks_ghz = m.core_clocks_ghz ∧
    (read_granite_ridge_offsets t m).vid = m.vid ∧
    (read_granite_ridge_offsets t m).core_clock_mhz = m.core_clock_mhz ∧
    (read_granite_ridge_offsets t m).iod_hotspot_c = m.iod_hotspot_c ∧
    (read_granite_ridge_offsets t m).has_iod_hotspot = m.has_iod_hotspot := by
  simp [read_granite_ridge_offsets]

theorem gr_power_stage_fields (t : List ℚ) (m : smu_metrics) :
    (gr_power_stage t m).core_temps_c = m.core_temps_c ∧
    (gr_power_stage t m).core_voltages = m.core_voltages ∧
    (gr_power_stage t m).core_clocks_ghz = m.core_clocks_ghz ∧
    (gr_power_stage t m).vid = m.vid ∧
    (gr_power_stage t m).core_clock_mhz = m.core_clock_mhz ∧
    (gr_power_stage t m).iod_hotspot_c = m.iod_hotspot_c ∧
    (gr_power_stage t m).has_iod_hotspot = m.has_iod_hotspot := by
  simp [gr_power_stage]

theorem gr_core_clock_stage_fields (m : smu_metrics) :
    (gr_core_clock_stage m).core_temps_c = m.core_temps_c ∧
    (gr_core_clock_stage m).core_voltages = m.core_voltages ∧
    (gr_core_clock_stage m).core_clocks_ghz = m.core_clocks_ghz ∧
    (gr_core_clock_stage m).vid = m.vid ∧
    (gr_core_clock_stage m).core_clock_mhz =
      (if 0 < m.core_clocks_ghz.length then
        (if 0.5 ≤ m.core_clocks_ghz.foldl (fun acc x => if acc < x then x else acc) 0 ∧
            m.core_clocks_ghz.foldl (fun acc x => if acc < x then x else acc) 0 ≤ 6.5 then
          m.core_clocks_ghz.foldl (fun acc x => if acc < x then x else acc) 0 * 1000
         else m.core_clock_mhz)
       else m.core_clock_mhz) ∧
    (gr_core_clock_stage m).iod_hotspot_c = m.iod_hotspot_c ∧
    (gr_core_clock_stage m).has_iod_hotspot = m.has_iod_hotspot := by
  simp only [gr_core_clock_stage]
  split_ifs <;> simp

theorem gr_cpu_temp_stage_fields (t : List ℚ) (m : smu_metrics) :
    (gr_cpu_temp_stage t m).core_temps_c = m.core_temps_c ∧
    (gr_cpu_temp_stage t m).core_voltages = m.core_voltages ∧
    (gr_cpu_temp_stage t m).core_clocks_ghz = m.core_clocks_ghz ∧
    (gr_cpu_temp_stage t m).vid = m.vid ∧
    (gr_cpu_temp_stage t m).core_clock_mhz = m.core_clock_mhz ∧
    (gr_cpu_temp_stage t m).iod_hotspot_c = m.iod_hotspot_c ∧
    (gr_cpu_temp_stage t m).has_iod_hotspot = m.has_iod_hotspot := by
  simp only [gr_cpu_temp_stage]
  split_ifs <;> simp

theorem gen_core_arrays_fields (map : pm_family_map) (t : List ℚ) (m : smu_metrics) :
    (gen_core_arrays map t m).core_temps_c =
      (if map.core_temp_start + min map.max_cores MAX_CORES ≤ t.length then
        (List.range (min map.max_cores MAX_CORES)).map fun i =>
          t.getD (map.core_temp_start + i) 0
       else m.core_temps_c) ∧
    (gen_core_arrays map t m).core_voltages =
      (if map.core_voltage_start + min map.max_cores MAX_CORES ≤ t.length then
        (List.range (min map.max_cores MAX_CORES)).map fun i =>
          t.getD (map.core_voltage_start + i) 0
       else m.core_voltages) ∧
    (gen_core_arrays map t m).core_clocks_ghz = m.core_clocks_ghz ∧
    (gen_core_arrays map t m).vid = m.vid ∧
    (gen_core_arrays map t m).core_clock_mhz = m.core_clock_mhz ∧
    (gen_core_arrays map t m).iod_hotspot_c = m.iod_hotspot_c ∧
    (gen_core_arrays map t m).has_iod_hotspot = m.has_iod_hotspot := by
  simp only [gen_core_arrays]
  split_ifs <;> simp

theorem gen_vid_fields (map : pm_family_map) (t : List ℚ) (m : smu_metrics) :
    (gen_vid map t m).core_temps_c = m.core_temps_c ∧
    (gen_vid map t m).core_voltages = m.core_voltages ∧
    (gen_vid map t m).core_clocks_ghz = m.core_clocks_ghz ∧
    (gen_vid map t m).vid =
      (if 0 < safe_get t map.vid_idx then safe_get t map.vid_idx else m.vid) ∧
    (gen_vid map t m).core_clock_mhz = m.core_clock_mhz ∧
    (gen_vid map t m).iod_hotspot_c = m.iod_hotspot_c ∧
    (gen_vid map t m).has_iod_hotspot = m.has_iod_hotspot := by
  simp only [gen_vid]
  split_ifs <;> simp

theorem gen_ppt_fields (map : pm_family_map) (t : List ℚ) (m : smu_metrics) :
    (gen_ppt map t m).core_temps_c = m.core_temps_c ∧
    (gen_ppt map t m).core_voltages = m.core_voltages ∧
    (gen_ppt map t m).core_clocks_ghz = m.core_clocks_ghz ∧
    (gen_ppt map t m).vid = m.vid ∧
    (gen_ppt map t m).core_clock_mhz = m.core_clock_mhz ∧
    (gen_ppt map t m).iod_hotspot_c = m.iod_hotspot_c ∧
    (gen_ppt map t m).has_iod_hotspot = m.has_iod_hotspot := by
  simp only [gen_ppt]
  split_ifs <;> simp

theorem gen_power_fields (map : pm_family_map) (t : List ℚ) (m : smu_metrics) :
    (gen_power map t m).core_temps_c = m.core_temps_c ∧
    (gen_power map t m).core_voltages = m.core_voltages ∧
    (gen_power map t m).core_clocks_ghz = m.core_clocks_ghz ∧
    (gen_power map t m).vid = m.vid ∧
    (gen_power map t m).core_clock_mhz = m.core_clock_mhz ∧
    (gen_power map t m).iod_hotspot_c = m.iod_hotspot_c ∧
    (gen_power map t m).has_iod_hotspot = m.has_iod_hotspot := by
  simp only [gen_power]
  split_ifs <;> simp

theorem gen_current_temp_fields (t : List ℚ) (m : smu_metrics) :
    (gen_current_temp t m).core_temps_c = m.core_temps_c ∧
    (gen_current_temp t m).core_voltages = m.core_voltages ∧
    (gen_current_temp t m).core_clocks_ghz = m.core_clocks_ghz ∧
    (gen_current_temp t m).vid = m.vid ∧
    (gen_current_temp t m).core_clock_mhz = m.core_clock_mhz ∧
    (gen_current_temp t m).iod_hotspot_c = m.iod_hotspot_c ∧
    (gen_current_temp t m).has_iod_hotspot = m.has_iod_hotspot := by
  simp [gen_current_temp]

theorem apply_named_step_fields (t : List ℚ) (m : smu_metrics) (e : Nat × pm_field) :
    (apply_named_step t m e).core_temps_c = m.core_temps_c ∧
    (apply_named_step t m e).core_voltages = m.core_voltages ∧
    (apply_named_step t m e).core_clocks_ghz = m.core_clocks_ghz ∧
    (apply_named_step t m e).vid = m.vid ∧
    (apply_named_step t m e).core_clock_mhz = m.core_clock_mhz := by
  obtain ⟨idx, f⟩ := e
  cases f <;> simp only [apply_named_step] <;> first
    | simp
    | (split_ifs <;> simp)

theorem apply_named_foldl_fields (t : List ℚ) (l : List (Nat × pm_field)) (m : smu_metrics) :
    (l.foldl (apply_named_step t) m).core_temps_c = m.core_temps_c ∧
    (l.foldl (apply_named_step t) m).core_voltages = m.core_voltages ∧
    (l.foldl (apply_named_step t) m).core_clocks_ghz = m.core_clocks_ghz ∧
    (l.foldl (apply_named_step t) m).vid = m.vid ∧
    (l.foldl (apply_named_step t) m).core_clock_mhz = m.core_clock_mhz := by
  induction l generalizing m with
  | nil => exact ⟨rfl, rfl, rfl, rfl, rfl⟩
  | cons e rest ih =>
      have hs := apply_named_step_fields t m e
      have hr := ih (apply_named_step t m e)
      simp only [List.foldl_cons]
      exact ⟨hr.1.trans hs.1, hr.2.1.trans hs.2.1, hr.2.2.1.trans hs.2.2.1,
             hr.2.2.2.1.trans hs.2.2.2.1, hr.2.2.2.2.trans hs.2.2.2.2⟩

theorem apply_named_fields (map : pm_family_map) (t : List ℚ) (m : smu_metrics) :
    (apply_named map t m).core_temps_c = m.core_temps_c ∧
    (apply_named map t m).core_voltages = m.core_voltages ∧
    (apply_named map t m).core_clocks_ghz = m.core_clocks_ghz ∧
    (apply_named map t m).vid = m.vid ∧
    (apply_named map t m).core_clock_mhz = m.core_clock_mhz := by
  simpa only [apply_named] using apply_named_foldl_fields t map.named m

/-! ### The IOD hotspot invariant -/

/-- The IOD hotspot discipline: the presence flag is only set together
with an in-range value, and while the flag is unset the field keeps its
zero default, so absence is distinguishable from a true zero reading. -/
def IodOk (m : smu_metrics) : Prop :=
  (m.has_iod_hotspot = true → 1 ≤ m.iod_hotspot_c ∧ m.iod_hotspot_c ≤ 150) ∧
  (m.has_iod_hotspot = false → m.iod_hotspot_c = 0)

theorem iod_ok_zero : IodOk zero_metrics := by
  constructor <;> simp [zero_metrics, IodOk]

theorem iod_ok_of_eq (m m' : smu_metrics)
    (h1 : m'.has_iod_hotspot = m.has_iod_hotspot)
    (h2 : m'.iod_hotspot_c = m.iod_hotspot_c) (hm : IodOk m) : IodOk m' := by
  constructor
  · intro h; rw [h2]; exact hm.1 (h1.symm.trans h)
  · intro h; rw [h2]; exact hm.2 (h1.symm.trans h)

theorem apply_named_step_iod (t : List ℚ) (m : smu_metrics) (e : Nat × pm_field) :
    ((apply_named_step t m e).has_iod_hotspot = m.has_iod_hotspot ∧
     (apply_named_step t m e).iod_hotspot_c = m.iod_hotspot_c) ∨
    ((apply_named_step t m e).has_iod_hotspot = true ∧
     1 ≤ (apply_named_step t m e).iod_hotspot_c ∧
     (apply_named_step t m e).iod_hotspot_c ≤ 150) := by
  obtain ⟨idx, f⟩ := e
  cases f <;> simp only [apply_named_step] <;> first
    | simp
    | (split_ifs with h <;> simp [h])

theorem iod_ok_foldl (t : List ℚ) (l : List (Nat × pm_field)) :
    ∀ m : smu_metrics, IodOk m → IodOk (l.foldl (apply_named_step t) m) := by
  induction l with
  | nil => exact fun m hm => hm
  | cons e rest ih =>
      intro m hm
      simp only [List.foldl_cons]
      apply ih
      rcases apply_named_step_iod t m e with ⟨h1, h2⟩ | ⟨h1, h2, h3⟩
      · exact iod_ok_of_eq m _ h1 h2 hm
      · constructor
        · intro _; exact ⟨h2, h3⟩
        · intro hf; rw [h1] at hf; cases hf
  
theorem flag_mono_foldl (t : List ℚ) (l : List (Nat × pm_field)) :
    ∀ m : smu_metrics, m.has_iod_hotspot = true →
      (l.foldl (apply_named_step t) m).has_iod_hotspot = true := by
  induction l with
  | nil => exact fun m hm => hm
  | cons e rest ih =>
      intro m hm
      simp only [List.foldl_cons]
      apply ih
      rcases apply_named_step_iod t m e with ⟨h1, -⟩ | ⟨h1, -, -⟩
      · exact h1.trans hm
      · exact h1

theorem flag_set_foldl (t : List ℚ) (l : List (Nat × pm_field)) (idx : Nat)
    (h1 : 1 ≤ safe_get t idx) (h2 : safe_get t idx ≤ 150) :
    ∀ m : smu_metrics, (idx, pm_field.F_IOD_HOTSPOT) ∈ l →
      (l.foldl (apply_named_step t) m).has_iod_hotspot = true := by
  induction l with
  | nil => intro m hmem; cases hmem
  | cons e rest ih =>
      intro m hmem
      simp only [List.foldl_cons]
      rcases List.mem_cons.mp hmem with he | hrest
      · apply flag_mono_foldl
        rw [← he]
        simp only [apply_named_step]
        rw [if_pos ⟨h1, h2⟩]
      · exact ih _ hrest

theorem rki_iod_ok (t : List ℚ) (m : smu_metrics) (hm : IodOk m) :
    IodOk (read_known_indices t m) := by
  obtain ⟨-, -, -, -, -, hic, hhas⟩ := read_known_indices_fields t m
  constructor
  · intro h
    rw [hhas] at h
    rw [hic]
    split_ifs at h ⊢ with h11 hr
    · exact hr
    · exact hm.1 h
    · exact hm.1 h
  · intro h
    rw [hhas] at h
    rw [hic]
    split_ifs at h ⊢ with h11 hr
    all_goals exact hm.2 h

theorem rki_flag_mono (t : List ℚ) (m : smu_metrics) (hm : m.has_iod_hotspot = true) :
    (read_known_indices t m).has_iod_hotspot = true := by
  obtain ⟨-, -, -, -, -, -, hhas⟩ := read_known_indices_fields t m
  rw [hhas]
  split_ifs <;> simp [hm]

theorem rki_flag_set (t : List ℚ) (m : smu_metrics) (h11 : 11 < t.length)
    (h1 : 1 ≤ t.getD 11 0) (h2 : t.getD 11 0 ≤ 150) :
    (read_known_indices t m).has_iod_hotspot = true := by
  obtain ⟨-, -, -, -, -, -, hhas⟩ := read_known_indices_fields t m
  rw [hhas, if_pos h11, if_pos ⟨h1, h2⟩]

theorem gr_suffix_iod (t : List ℚ) (m : smu_metrics) :
    (gr_cpu_temp_stage t (gr_core_clock_stage (gr_power_stage t m))).has_iod_hotspot =
      m.has_iod_hotspot ∧
    (gr_cpu_temp_stage t (gr_core_clock_stage (gr_power_stage t m))).iod_hotspot_c =
      m.iod_hotspot_c := by
  simp [gr_cpu_temp_stage_fields, gr_core_clock_stage_fields, gr_power_stage_fields]

theorem gen_prefix_iod (map : pm_family_map) (t : List ℚ) (m : smu_metrics) :
    (gen_current_temp t (gen_power map t (gen_ppt map t (gen_vid map t
      (gen_core_arrays map t m))))).has_iod_hotspot = m.has_iod_hotspot ∧
    (gen_current_temp t (gen_power map t (gen_ppt map t (gen_vid map t
      (gen_core_arrays map t m))))).iod_hotspot_c = m.iod_hotspot_c := by
  simp [gen_current_temp_fields, gen_power_fields, gen_ppt_fields, gen_vid_fields,
    gen_core_arrays_fields]

theorem pm_granite_branch_iod_ok (t : List ℚ) : IodOk (pm_granite_branch t) := by
  have hA : IodOk (read_granite_ridge_offsets t zero_metrics) :=
    iod_ok_of_eq _ _ (read_granite_ridge_offsets_fields t zero_metrics).2.2.2.2.2.2
      (read_granite_ridge_offsets_fields t zero_metrics).2.2.2.2.2.1 iod_ok_zero
  have hB := rki_iod_ok t _ hA
  exact iod_ok_of_eq _ _ (gr_suffix_iod t _).1 (gr_suffix_iod t _).2 hB

theorem pm_generic_branch_iod_ok (version : Nat) (t : List ℚ) :
    IodOk (pm_generic_branch version t) := by
  have h1 : IodOk (apply_named (get_family_map version) t zero_metrics) :=
    iod_ok_foldl t (get_family_map version).named zero_metrics iod_ok_zero
  have h6 : IodOk (gen_current_temp t (gen_power (get_family_map version) t
      (gen_ppt (get_family_map version) t (gen_vid (get_family_map version) t
        (gen_core_arrays (get_family_map version) t
          (apply_named (get_family_map version) t zero_metrics)))))) :=
    iod_ok_of_eq _ _ (gen_prefix_iod _ t _).1 (gen_prefix_iod _ t _).2 h1
  exact rki_iod_ok t _ h6

theorem pm_table_read_iod_ok (version : Nat) (table : Option (List ℚ)) (c : Int) :
    IodOk (pm_table_read version table c) := by
  cases table with
  | none => exact iod_ok_zero
  | some t =>
      by_cases h4 : t.length < 4
      · simpa [pm_table_read, h4] using iod_ok_zero
      · by_cases hc : c = 23
        · simpa [pm_table_read, h4, hc] using pm_granite_branch_iod_ok t
        · simpa [pm_table_read, h4, hc] using pm_generic_branch_iod_ok version t

/-! ### Shape of `pm_table_read` on a valid table -/

theorem pm_table_read_granite (version : Nat) (t : List ℚ) (h4 : ¬ t.length < 4) :
    pm_table_read version (some t) 23 = pm_granite_branch t := by
  simp [pm_table_read, h4]

theorem pm_table_read_generic (version : Nat) (t : List ℚ) (c : Int)
    (h4 : ¬ t.length < 4) (hc : c ≠ 23) :
    pm_table_read version (some t) c = pm_generic_branch version t := by
  simp [pm_table_read, h4, hc]

/-! ### The claims -/

/-- C1: for every 32-bit word and every pair of integers `lo`, `hi` with
`0 ≤ lo ≤ hi ≤ 31`, `bit_slice word hi lo` equals
`(word >> lo) & ((1 << (hi-lo+1)) - 1)` (the bits of the inclusive range
`[lo, hi]`, right-aligned); and whenever `hi < lo` or the field width
`hi - lo + 1` exceeds 32, `bit_slice` returns 0. -/
theorem C1_bit_slice_extract (word : Nat) (hi lo : Int) :
    (0 ≤ lo → lo ≤ hi → hi ≤ 31 →
      bit_slice word hi lo =
        (word >>> lo.toNat) &&& ((1 <<< (hi - lo + 1).toNat) - 1)) ∧
    ((hi < lo ∨ 32 < hi - lo + 1) → bit_slice word hi lo = 0) := by
  constructor
  · intro h0 h1 h2
    simp only [bit_slice]
    rw [if_neg (by omega)]
    by_cases h32 : hi - lo + 1 = 32
    · rw [if_pos h32, h32]
      congr 1
    · rw [if_neg h32]
  · intro h
    simp only [bit_slice]
    rw [if_pos (by omega)]

/-- C2: `pm_table_read` with an absent table or fewer than 4 elements
yields the all-zero record, regardless of version and family hint; in
particular a table of length 3 always yields the zero record. -/
theorem C2_pm_table_guard (version : Nat) (codename_index : Int) :
    pm_table_read version none codename_index = zero_metrics ∧
    (∀ t : List ℚ, t.length < 4 →
      pm_table_read version (some t) codename_index = zero_metrics) ∧
    (∀ a b c : ℚ,
      pm_table_read version (some [a, b, c]) codename_index = zero_metrics) := by
  refine ⟨rfl, ?_, ?_⟩
  · intro t ht
    simp [pm_table_read, ht]
  · intro a b c
    simp [pm_table_read]

/-- C6: `to_nanoseconds` returns 0 for a non-positive frequency;
otherwise it returns `cycles * 2000 / freq_mhz`, halved exactly when that
value exceeds the raw cycle count; in particular
`to_nanoseconds 800 3200 = 500` with no halving applied. -/
theorem C6_to_nanoseconds (cycles : Nat) (freq_mhz : ℚ) :
    (freq_mhz ≤ 0 → to_nanoseconds cycles freq_mhz = 0) ∧
    (0 < freq_mhz →
      to_nanoseconds cycles freq_mhz =
        (if (cycles : ℚ) < (cycles : ℚ) * 2000 / freq_mhz
         then (cycles : ℚ) * 2000 / freq_mhz / 2
         else (cycles : ℚ) * 2000 / freq_mhz)) ∧
    to_nanoseconds 800 3200 = 500 ∧ ¬ ((800 : ℚ) < (800 : ℚ) * 2000 / 3200) := by
  refine ⟨?_, ?_, ?_, by norm_num⟩
  · intro h
    simp [to_nanoseconds, h]
  · intro h
    simp [to_nanoseconds, not_le.mpr h]
  · norm_num [to_nanoseconds]

/-- C5: after every `pm_table_read` call the IOD-hotspot presence flag
implies a value in [1, 150]; without the flag the field stays 0 (absence
distinguishable from a true zero); and the flag is set whenever an
in-range candidate is read — the fixed-index candidate at index 11, or a
family-map IOD entry on the generic branch. -/
theorem C5_iod_hotspot_invariant (version : Nat) (table : Option (List ℚ)) (c : Int) :
    ((pm_table_read version table c).has_iod_hotspot = true →
      1 ≤ (pm_table_read version table c).iod_hotspot_c ∧
        (pm_table_read version table c).iod_hotspot_c ≤ 150) ∧
    ((pm_table_read version table c).has_iod_hotspot = false →
      (pm_table_read version table c).iod_hotspot_c = 0) ∧
    (∀ t : List ℚ, table = some t → 11 < t.length → 1 ≤ t.getD 11 0 →
      t.getD 11 0 ≤ 150 → (pm_table_read version table c).has_iod_hotspot = true) ∧
    (∀ t : List ℚ, table = some t → ¬ t.length < 4 → c ≠ 23 →
      ∀ idx : Nat, (idx, pm_field.F_IOD_HOTSPOT) ∈ (get_family_map version).named →
        1 ≤ safe_get t idx → safe_get t idx ≤ 150 →
        (pm_table_read version table c).has_iod_hotspot = true) := by
  refine ⟨(pm_table_read_iod_ok version table c).1,
          (pm_table_read_iod_ok version table c).2, ?_, ?_⟩
  · intro t ht h11 hlo hhi
    subst ht
    have h4 : ¬ t.length < 4 := by omega
    by_cases hc : c = 23
    · subst hc
      rw [pm_table_read_granite version t h4]
      simp only [pm_granite_branch]
      rw [(gr_suffix_iod t _).1]
      exact rki_flag_set t _ h11 hlo hhi
    · rw [pm_table_read_generic version t c h4 hc]
      simp only [pm_generic_branch]
      exact rki_flag_set t _ h11 hlo hhi
  · intro t ht h4 hc idx hmem hlo hhi
    subst ht
    rw [pm_table_read_generic version t c h4 hc]
    simp only [pm_generic_branch]
    apply rki_flag_mono
    rw [(gen_prefix_iod _ t _).1]
    simp only [apply_named]
    exact flag_set_foldl t _ idx hlo hhi _ hmem

/-- C9: for every non-newest family (codename index ≠ 23), the fixed
Granite-Ridge index pass runs after the family-map pass, so whenever the
table covers the fixed indices, the outputs equal the table values at
indices 317-324 (8 core temperatures), 309-316 (8 core voltages), 275
(VID) and 325-340 (16 core clocks), overwriting any family-map-derived
values (the equalities hold for every version). -/
theorem C9_fixed_index_pass (version : Nat) (t : List ℚ) (c : Int) (hc : c ≠ 23) :
    (324 < t.length →
      (pm_table_read version (some t) c).core_temps_c =
        (List.range 8).map fun i => t.getD (317 + i) 0) ∧
    (316 < t.length →
      (pm_table_read version (some t) c).core_voltages =
        (List.range 8).map fun i => t.getD (309 + i) 0) ∧
    (275 < t.length → (pm_table_read version (some t) c).vid = t.getD 275 0) ∧
    (340 < t.length →
      (pm_table_read version (some t) c).core_clocks_ghz =
        (List.range 16).map fun i => t.getD (325 + i) 0) := by
  refine ⟨fun hlen => ?_, fun hlen => ?_, fun hlen => ?_, fun hlen => ?_⟩
  all_goals
    rw [pm_table_read_generic version t c (by omega) hc]
    simp only [pm_generic_branch]
  · rw [(read_known_indices_fields t _).1, if_pos hlen]
  · rw [(read_known_indices_fields t _).2.1, if_pos hlen]
  · rw [(read_known_indices_fields t _).2.2.2.1, if_pos hlen]
  · rw [(read_known_indices_fields t _).2.2.1, if_pos hlen]

/-- Witness for C9: on a concrete 400-entry table of the value 2 with the
Raven-Ridge version tag, the VID output is the table value at the fixed
Granite-Ridge index 275. -/
theorem C9_fixed_index_pass_witness :
    (pm_table_read 0x1E0004 (some (List.replicate 400 (2:ℚ))) 0).vid =
      (List.replicate 400 (2:ℚ)).getD 275 0 :=
  (C9_fixed_index_pass 0x1E0004 (List.replicate 400 2) 0 (by decide)).2.2.1
    (by rw [List.length_replicate]; omega)

theorem pm_granite_branch_lens (t : List ℚ) :
    (pm_granite_branch t).core_temps_c.length ≤ 16 ∧
    (pm_granite_branch t).core_voltages.length ≤ 16 ∧
    (pm_granite_branch t).core_clocks_ghz.length ≤ 16 := by
  simp only [pm_granite_branch, gr_cpu_temp_stage_fields, gr_core_clock_stage_fields,
    gr_power_stage_fields, read_known_indices_fields, read_granite_ridge_offsets_fields]
  split_ifs <;> simp [zero_metrics]

theorem pm_generic_branch_lens (version : Nat) (t : List ℚ) :
    (pm_generic_branch version t).core_temps_c.length ≤ 16 ∧
    (pm_generic_branch version t).core_voltages.length ≤ 16 ∧
    (pm_generic_branch version t).core_clocks_ghz.length ≤ 16 := by
  simp only [pm_generic_branch, read_known_indices_fields, gen_current_temp_fields,
    gen_power_fields, gen_ppt_fields, gen_vid_fields, gen_core_arrays_fields,
    apply_named_fields]
  split_ifs <;> simp [zero_metrics, MAX_CORES]

set_option maxRecDepth 10000 in
/-- C3 counterexample: with the Raven-Ridge version tag (family map with
`max_cores = 4`) and a 400-entry table, the fixed-index pass writes 8
core-temperature entries, so the output is not bounded by
`min (family.max_cores) 16 = 4` as the claim states. -/
theorem C3_counterexample :
    ¬ ((pm_table_read 0x1E0004 (some (List.replicate 400 (0:ℚ))) 0).core_temps_c.length ≤
        min (get_family_map 0x1E0004).max_cores MAX_CORES) := by
  decide

/-- C3 (amended): `pm_table_read` never writes a per-core entry at an
array index ≥ 16: every per-core output list has length at most 16 (the
core-usage array is never written at all), and the family-map pass by
itself is clamped to `min (map.max_cores) MAX_CORES` entries for any
family map, including a hypothetical one with `max_cores = 20`.  The
bound `min (family.max_cores) 16` does not hold for the whole decoder,
because the fixed-index pass may write 8 temperature/voltage and 16
clock entries regardless of the family's `max_cores`. -/
theorem C3_core_array_capacity (version : Nat) (table : Option (List ℚ)) (c : Int) :
    (pm_table_read version table c).core_temps_c.length ≤ 16 ∧
    (pm_table_read version table c).core_voltages.length ≤ 16 ∧
    (pm_table_read version table c).core_clocks_ghz.length ≤ 16 ∧
    (∀ map : pm_family_map, ∀ t : List ℚ,
      (gen_core_arrays map t zero_metrics).core_temps_c.length ≤
        min map.max_cores MAX_CORES ∧
      (gen_core_arrays map t zero_metrics).core_voltages.length ≤
        min map.max_cores MAX_CORES) := by
  have hmain : (pm_table_read version table c).core_temps_c.length ≤ 16 ∧
      (pm_table_read version table c).core_voltages.length ≤ 16 ∧
      (pm_table_read version table c).core_clocks_ghz.length ≤ 16 := by
    cases table with
    | none => simp [pm_table_read, zero_metrics]
    | some t =>
        by_cases h4 : t.length < 4
        · simp [pm_table_read, h4, zero_metrics]
        · by_cases hc : c = 23
          · rw [hc, pm_table_read_granite version t h4]
            exact pm_granite_branch_lens t
          · rw [pm_table_read_generic version t c h4 hc]
            exact pm_generic_branch_lens version t
  refine ⟨hmain.1, hmain.2.1, hmain.2.2, ?_⟩
  intro map t
  obtain ⟨e1, e2, -⟩ := gen_core_arrays_fields map t zero_metrics
  rw [e1, e2]
  constructor <;> split_ifs <;> simp [zero_metrics]

/-- C4 (amended): the overall core clock is derived from the per-core
clock maximum only on the Granite Ridge branch (codename index 23): there
it equals 1000 times the running maximum of the per-core clock list when
that maximum lies in [0.5, 6.5] GHz and the list is nonempty, and is left
0 otherwise; on every other codename index the field is always left 0,
even when the per-core clock array is available. -/
theorem C4_core_clock_derivation (version : Nat) (table : Option (List ℚ)) (c : Int) :
    (c ≠ 23 → (pm_table_read version table c).core_clock_mhz = 0) ∧
    ((pm_table_read version table 23).core_clock_mhz =
      (if 0 < (pm_table_read version table 23).core_clocks_ghz.length ∧
          0.5 ≤ (pm_table_read version table 23).core_clocks_ghz.foldl
              (fun acc x => if acc < x then x else acc) 0 ∧
          (pm_table_read version table 23).core_clocks_ghz.foldl
              (fun acc x => if acc < x then x else acc) 0 ≤ 6.5 then
        (pm_table_read version table 23).core_clocks_ghz.foldl
            (fun acc x => if acc < x then x else acc) 0 * 1000
       else 0)) := by
  constructor
  · intro hc
    cases table with
    | none => rfl
    | some t =>
        by_cases h4 : t.length < 4
        · simp [pm_table_read, h4, zero_metrics]
        · rw [pm_table_read_generic version t c h4 hc]
          simp only [pm_generic_branch]
          rw [(read_known_indices_fields t _).2.2.2.2.1,
              (gen_current_temp_fields t _).2.2.2.2.1,
              (gen_power_fields _ t _).2.2.2.2.1,
              (gen_ppt_fields _ t _).2.2.2.2.1,
              (gen_vid_fields _ t _).2.2.2.2.1,
              (gen_core_arrays_fields _ t _).2.2.2.2.1,
              (apply_named_fields _ t _).2.2.2.2]
          rfl
  · cases table with
    | none => simp [pm_table_read, zero_metrics]
    | some t =>
        by_cases h4 : t.length < 4
        · simp [pm_table_read, h4, zero_metrics]
        · rw [pm_table_read_granite version t h4]
          simp only [pm_granite_branch]
          have hE := gr_cpu_temp_stage_fields t (gr_core_clock_stage (gr_power_stage t
            (read_known_indices t (read_granite_ridge_offsets t zero_metrics))))
          have hD := gr_core_clock_stage_fields (gr_power_stage t
            (read_known_indices t (read_granite_ridge_offsets t zero_metrics)))
          have hC := gr_power_stage_fields t
            (read_known_indices t (read_granite_ridge_offsets t zero_metrics))
          have hB := read_known_indices_fields t (read_granite_ridge_offsets t zero_metrics)
          have hA := read_granite_ridge_offsets_fields t zero_metrics
          rw [hE.2.2.2.2.1, hD.2.2.2.2.1, hE.2.2.1, hD.2.2.1,
              hC.2.2.2.2.1, hB.2.2.2.2.1, hA.2.2.2.2.1]
          split_ifs <;> first | rfl | tauto

set_option maxRecDepth 10000 in
/-- C4 counterexample: on the generic branch (codename index 0) with a
341-entry table of the value 3, the per-core clock list is available
(16 entries) and its maximum 3 GHz lies in [0.5, 6.5], yet the overall
core clock field is not 3000 MHz (it is left 0): the derivation claimed
for every family hint does not happen outside the codename-23 branch. -/
theorem C4_counterexample :
    0 < (pm_table_read 0 (some (List.replicate 341 (3:ℚ))) 0).core_clocks_ghz.length ∧
    (pm_table_read 0 (some (List.replicate 341 (3:ℚ))) 0).core_clocks_ghz.foldl
        (fun acc x => if acc < x then x else acc) 0 = 3 ∧
    (0.5 : ℚ) ≤ 3 ∧ (3 : ℚ) ≤ 6.5 ∧
    ¬ ((pm_table_read 0 (some (List.replicate 341 (3:ℚ))) 0).core_clock_mhz = 3 * 1000) := by
  have h4 : ¬ (List.replicate 341 (3:ℚ)).length < 4 := by
    rw [List.length_replicate]; omega
  have hclocks : (pm_table_read 0 (some (List.replicate 341 (3:ℚ))) 0).core_clocks_ghz =
      List.replicate 16 3 := by
    rw [pm_table_read_generic 0 _ 0 h4 (by decide)]
    simp only [pm_generic_branch]
    rw [(read_known_indices_fields _ _).2.2.1,
        if_pos (by rw [List.length_replicate]; omega)]
    decide
  have hcc : (pm_table_read 0 (some (List.replicate 341 (3:ℚ))) 0).core_clock_mhz = 0 := by
    rw [pm_table_read_generic 0 _ 0 h4 (by decide)]
    simp only [pm_generic_branch]
    rw [(read_known_indices_fields _ _).2.2.2.2.1,
        (gen_current_temp_fields _ _).2.2.2.2.1,
        (gen_power_fields _ _ _).2.2.2.2.1,
        (gen_ppt_fields _ _ _).2.2.2.2.1,
        (gen_vid_fields _ _ _).2.2.2.2.1,
        (gen_core_arrays_fields _ _ _).2.2.2.2.1,
        (apply_named_fields _ _ _).2.2.2.2]
    rfl
  refine ⟨by rw [hclocks]; decide, by rw [hclocks]; decide, by norm_num, by norm_num, ?_⟩
  rw [hcc]
  norm_num

/-- C7: `dram_read_timings` dispatches exactly on the codename index:
23 takes the DDR5 path, each of 4, 9, 10, 12, 18, 19 takes the DDR4
path, and every other index yields the all-zero timing record (every
field, including the mode flags and the command-rate string, at its zero
default). -/
theorem C7_dram_dispatch (smn : Nat → Nat) (c : Int) :
    dram_read_timings smn 23 = read_ddr5_timings smn zero_timings ∧
    ((c = 4 ∨ c = 9 ∨ c = 10 ∨ c = 12 ∨ c = 18 ∨ c = 19) →
      dram_read_timings smn c = read_ddr4_timings smn zero_timings) ∧
    (c ≠ 23 → ¬ (c = 4 ∨ c = 9 ∨ c = 10 ∨ c = 12 ∨ c = 18 ∨ c = 19) →
      dram_read_timings smn c = zero_timings) := by
  refine ⟨by simp [dram_read_timings], ?_, ?_⟩
  · intro h
    simp only [dram_read_timings]
    rw [if_neg (by rcases h with h | h | h | h | h | h <;> omega), if_pos h]
  · intro h1 h2
    simp only [dram_read_timings]
    rw [if_neg h1, if_neg h2]

/-- C10: on the DDR4 path (codename indices 4, 9, 10, 12, 18, 19) the
returned record has no frequency hint, an empty command-rate string,
both mode flags false, and all four nanosecond fields 0: no nanosecond
conversion and no mode-flag decoding happens on that path. -/
theorem C10_ddr4_no_derivation (smn : Nat → Nat) (c : Int)
    (hc : c = 4 ∨ c = 9 ∨ c = 10 ∨ c = 12 ∨ c = 18 ∨ c = 19) :
    (dram_read_timings smn c).frequency_hint_mhz = 0 ∧
    (dram_read_timings smn c).cmd2t = "" ∧
    (dram_read_timings smn c).gdm_enabled = false ∧
    (dram_read_timings smn c).power_down_enabled = false ∧
    (dram_read_timings smn c).trefi_ns = 0 ∧
    (dram_read_timings smn c).trfc_ns = 0 ∧
    (dram_read_timings smn c).trfc2_ns = 0 ∧
    (dram_read_timings smn c).trfcsb_ns = 0 := by
  have hd : dram_read_timings smn c = read_ddr4_timings smn zero_timings := by
    simp only [dram_read_timings]
    rw [if_neg (by rcases hc with h | h | h | h | h | h <;> omega), if_pos hc]
  rw [hd]
  simp only [read_ddr4_timings]
  split_ifs <;> simp [read_common_timings, zero_timings]

/-- Witness for C10: with the constant-zero register reader and codename
index 4, the DDR4 record carries no frequency hint, flags or nanosecond
fields. -/
theorem C10_ddr4_no_derivation_witness :
    (dram_read_timings (fun _ => 0) 4).frequency_hint_mhz = 0 ∧
    (dram_read_timings (fun _ => 0) 4).cmd2t = "" ∧
    (dram_read_timings (fun _ => 0) 4).gdm_enabled = false ∧
    (dram_read_timings (fun _ => 0) 4).power_down_enabled = false ∧
    (dram_read_timings (fun _ => 0) 4).trefi_ns = 0 ∧
    (dram_read_timings (fun _ => 0) 4).trfc_ns = 0 ∧
    (dram_read_timings (fun _ => 0) 4).trfc2_ns = 0 ∧
    (dram_read_timings (fun _ => 0) 4).trfcsb_ns = 0 :=
  C10_ddr4_no_derivation (fun _ => 0) 4 (Or.inl rfl)

/-- C8: at every in-bounds position where the 7-byte AODE signature
matches, the locator inspects the single byte after the signature:
tag 0x0C yields the 4-byte little-endian address operand, tag 0x0E the
8-byte one, and any other tag continues the linear scan at the next
position; in particular a signature followed by 0x0C and bytes
00 10 00 00 locates physical address 0x1000 with the fixed region-size
constant. -/
theorem C8_aml_locator (aml : List Nat) (i : Nat) :
    (i + 7 + 10 < aml.length → matches_at aml i = true →
      ((aml.getD (i + 7) 0 = 0x0C →
        find_aode_from aml i = some (le_decode aml (i + 8) 4)) ∧
       (aml.getD (i + 7) 0 = 0x0E →
        find_aode_from aml i = some (le_decode aml (i + 8) 8)) ∧
       (aml.getD (i + 7) 0 ≠ 0x0C → aml.getD (i + 7) 0 ≠ 0x0E →
        find_aode_from aml i = find_aode_from aml (i + 1)))) ∧
    find_aod_phys ([0x5B, 0x80, 0x41, 0x4F, 0x44, 0x45, 0x00, 0x0C,
        0x00, 0x10, 0x00, 0x00] ++ List.replicate 6 0) =
      some (0x1000, AOD_REGION_SIZE) := by
  constructor
  · intro hlen hm
    refine ⟨?_, ?_, ?_⟩
    · intro h
      simp only [List.getD_eq_getElem?_getD] at h
      conv_lhs => rw [find_aode_from]
      rw [dif_pos hlen]
      simp [hm, h]
    · intro h
      simp only [List.getD_eq_getElem?_getD] at h
      conv_lhs => rw [find_aode_from]
      rw [dif_pos hlen]
      simp [hm, h]
    · intro h1 h2
      simp only [List.getD_eq_getElem?_getD] at h1 h2
      conv_lhs => rw [find_aode_from]
      rw [dif_pos hlen]
      simp [hm, h1, h2]
  · have hfind : find_aode_from ([0x5B, 0x80, 0x41, 0x4F, 0x44, 0x45, 0x00, 0x0C,
        0x00, 0x10, 0x00, 0x00] ++ List.replicate 6 0) 0 = some 0x1000 := by
      rw [find_aode_from, dif_pos (by decide)]
      decide
    simp only [find_aod_phys]
    rw [hfind]
    rfl
